import Mathlib

/-!
Shallow embedding of `internal/authmanager/client.go` from the
google-doc-review repository, together with proofs about the credential
lifecycle: loading, expiry checking, interactive authorization, token
exchange, and persistence.

Modelling conventions:
* Timestamps and durations (`time.Time`, `time.Duration`) are integers in
  nanoseconds; `time.Now()` is an explicit `now` argument threaded through
  each operation, and `time.Since(t)` is `now - t`.
* The filesystem is restricted to the two paths the component touches: the
  token file (`~/.google-doc-review/token.json`) and its containing
  directory.  Each carries its Unix permission bits.  `os.ReadFile`,
  `os.WriteFile`, `os.MkdirAll`, `os.Stat` and `os.Remove` act on this
  state; in this model the write operations succeed (disk-full style I/O
  faults are out of scope, none of the analysed paths depend on them).
* Go errors built with `fmt.Errorf` are modelled by an inductive type that
  records the message and, when the format verb `%w` is used, the wrapped
  cause; sentinel errors from the standard library (`fs.ErrNotExist`,
  JSON decoding errors) are `sentinel` leaves.
* JSON serialization is modelled structurally: `json.Marshal` produces a
  JSON value and `json.Unmarshal` consumes one.  A file whose bytes are not
  JSON at all is the `garbage` case.  The RFC 3339 encoding of `time.Time`
  is abstracted by its (injective, nanosecond-precision) integer value.
* The pluggable `Authenticator` capability and the provider's token
  endpoint (`config.Exchange`) are oracle functions supplied in an
  environment record; `*oauth2.Token` pointers are `Option Token`, with
  `none` for `nil`.
-/

namespace GoogleDocReview

/-- Structural JSON values, the image of `encoding/json` marshalling. -/
inductive Json where
  | null : Json
  | str : String → Json
  | num : Int → Json
  | obj : List (String × Json) → Json

/-- Field lookup in a JSON object body, as `encoding/json` matches struct tags. -/
def lookupField : List (String × Json) → String → Option Json
  | [], _ => none
  | (k, v) :: rest, key => if k = key then some v else lookupField rest key

/-- Go errors: `sentinel` is a standard-library error value; `errorfNoWrap`
is `fmt.Errorf` without `%w` (no recoverable cause); `errorfWrap` is
`fmt.Errorf` with a trailing `: %w` (the cause is reachable via `Unwrap`). -/
inductive GoError where
  | sentinel : String → GoError
  | errorfNoWrap : String → GoError
  | errorfWrap : String → GoError → GoError
deriving DecidableEq, Repr

/-- The `fs.ErrNotExist`-class error produced by `os.ReadFile` on a missing file. -/
def errNotExist : GoError := GoError.sentinel "file does not exist"

/-- The `json.SyntaxError` produced by `json.Unmarshal` on bytes that are not JSON. -/
def jsonSyntaxError : GoError := GoError.sentinel "invalid character"

/-- The `json.UnmarshalTypeError` produced when a JSON value has the wrong shape. -/
def jsonTypeError : GoError := GoError.sentinel "json: cannot unmarshal"

/-- Whether an error exposes a wrapped underlying cause (`errors.Unwrap` non-nil). -/
def hasWrappedCause : GoError → Bool
  | GoError.errorfWrap _ _ => true
  | _ => false

/-- The chain of errors reachable from `e` by repeated `errors.Unwrap`,
including `e` itself — the values `errors.Is` and `errors.As` can see. -/
def causeChain : GoError → List GoError
  | GoError.errorfWrap m w => GoError.errorfWrap m w :: causeChain w
  | e => [e]

/-- Whether `target` occurs in the unwrap chain of `e` (Go's `errors.Is`). -/
def chainContains (e target : GoError) : Bool :=
  (causeChain e).contains target

/-- The relevant fields of the vendor `oauth2.Token` structure. -/
structure Token where
  accessToken : String
  tokenType : String
  refreshToken : String
  expiry : Int
deriving DecidableEq, Repr

/-- `TokenWithExpiry` wraps the (possibly nil) `oauth2.Token` pointer with the
locally managed `IssuedAt` timestamp and `ExpiresIn` duration. -/
structure TokenWithExpiry where
  token : Option Token
  issuedAt : Int
  expiresIn : Int
deriving DecidableEq, Repr

/-- `IsExpired` reports `time.Since(t.IssuedAt) > t.ExpiresIn`. -/
def IsExpired (t : TokenWithExpiry) (now : Int) : Bool :=
  decide (now - t.issuedAt > t.expiresIn)

/-- One day in nanoseconds, the literal `24 * time.Hour` used by `saveToken`. -/
def day : Int := 24 * 60 * 60 * 1000000000

/-- Marshalling of `oauth2.Token` (struct tags `access_token`,
`token_type,omitempty`, `refresh_token,omitempty`, `expiry,omitempty`). -/
def marshalToken (t : Token) : Json :=
  Json.obj ([("access_token", Json.str t.accessToken)]
    ++ (if t.tokenType = "" then [] else [("token_type", Json.str t.tokenType)])
    ++ (if t.refreshToken = "" then [] else [("refresh_token", Json.str t.refreshToken)])
    ++ (if t.expiry = 0 then [] else [("expiry", Json.num t.expiry)]))

/-- Marshalling of `TokenWithExpiry` (struct tags `token`, `issued_at`,
`expires_in`); a nil token pointer serializes as JSON `null`. -/
def marshalTokenWithExpiry (t : TokenWithExpiry) : Json :=
  Json.obj
    [("token", match t.token with | none => Json.null | some tok => marshalToken tok),
     ("issued_at", Json.num t.issuedAt),
     ("expires_in", Json.num t.expiresIn)]

/-- Decoding of a string-typed struct field: a missing key leaves the zero
value `""`, a mismatched type is an `UnmarshalTypeError`. -/
def strField (fields : List (String × Json)) (key : String) : Except GoError String :=
  match lookupField fields key with
  | none => Except.ok ""
  | some (Json.str s) => Except.ok s
  | some _ => Except.error jsonTypeError

/-- Decoding of a numeric struct field: a missing key leaves the zero value. -/
def numField (fields : List (String × Json)) (key : String) : Except GoError Int :=
  match lookupField fields key with
  | none => Except.ok 0
  | some (Json.num n) => Except.ok n
  | some _ => Except.error jsonTypeError

/-- Unmarshalling into `oauth2.Token`. -/
def unmarshalToken : Json → Except GoError Token
  | Json.obj fields => do
    let a ← strField fields "access_token"
    let ty ← strField fields "token_type"
    let r ← strField fields "refresh_token"
    let ex ← numField fields "expiry"
    pure { accessToken := a, tokenType := ty, refreshToken := r, expiry := ex }
  | _ => Except.error jsonTypeError

/-- Decoding of the `token` field into a `*oauth2.Token`: a missing key or
JSON `null` leaves the nil pointer. -/
def optTokenField (fields : List (String × Json)) : Except GoError (Option Token) :=
  match lookupField fields "token" with
  | none => Except.ok none
  | some Json.null => Except.ok none
  | some j => do
    let t ← unmarshalToken j
    pure (some t)

/-- Unmarshalling into `TokenWithExpiry`, as `json.Unmarshal` populates it. -/
def unmarshalTokenWithExpiry : Json → Except GoError TokenWithExpiry
  | Json.obj fields => do
    let tok ← optTokenField fields
    let ia ← numField fields "issued_at"
    let ex ← numField fields "expires_in"
    pure { token := tok, issuedAt := ia, expiresIn := ex }
  | _ => Except.error jsonTypeError

theorem unmarshalToken_marshalToken (t : Token) :
    unmarshalToken (marshalToken t) = Except.ok t := by
  unfold marshalToken unmarshalToken
  by_cases h1 : t.tokenType = "" <;> by_cases h2 : t.refreshToken = "" <;>
    by_cases h3 : t.expiry = 0 <;>
      simp [h1, h2, h3, strField, numField, lookupField, pure, Except.pure, bind,
        Except.bind] <;>
        cases t <;> simp_all

theorem marshalToken_isObj (tk : Token) :
    ∃ fields, marshalToken tk = Json.obj fields :=
  ⟨_, rfl⟩

theorem unmarshal_marshal_tokenWithExpiry (t : TokenWithExpiry) :
    unmarshalTokenWithExpiry (marshalTokenWithExpiry t) = Except.ok t := by
  cases t with
  | mk tok ia ex =>
    cases tok with
    | none =>
        simp [marshalTokenWithExpiry, unmarshalTokenWithExpiry, optTokenField,
          numField, lookupField, bind, Except.bind, pure, Except.pure]
    | some tk =>
        obtain ⟨fields, hf⟩ := marshalToken_isObj tk
        have hm := unmarshalToken_marshalToken tk
        rw [hf] at hm
        simp [marshalTokenWithExpiry, unmarshalTokenWithExpiry, optTokenField,
          numField, lookupField, hf, hm, bind, Except.bind, pure, Except.pure]

/-- Raw bytes of the token file: either well-formed JSON or bytes that fail
`json.Unmarshal` with a syntax error. -/
inductive FileData where
  | json : Json → FileData
  | garbage : FileData

/-- A file on disk together with its Unix permission bits. -/
structure FileEntry where
  data : FileData
  perm : Nat

/-- A directory on disk together with its Unix permission bits. -/
structure DirEntry where
  perm : Nat
deriving DecidableEq, Repr

/-- The filesystem state visible to the credential manager: the token file
at `tokenPath` and its containing directory, each possibly absent. -/
structure FS where
  tokenFile : Option FileEntry
  tokenDir : Option DirEntry

/-- The fields of `oauth2.Config` built by `NewWithConfig`. -/
structure OAuthConfig where
  clientID : String
  clientSecret : String
  redirectURL : String
  scopes : List String
  endpointAuthURL : String
  endpointTokenURL : String
deriving DecidableEq, Repr

/-- The `*http.Client` returned by `config.Client(ctx, token)`: a transport
bound to the OAuth config and the loaded (possibly nil) token. -/
structure HTTPClient where
  config : OAuthConfig
  token : Option Token

/-- `config.AuthCodeURL("state", oauth2.AccessTypeOffline)`: the consent URL
embedding client id, redirect target, scopes and the offline-access request. -/
def AuthCodeURL (c : OAuthConfig) (state : String) : String :=
  c.endpointAuthURL ++ "?access_type=offline&client_id=" ++ c.clientID
    ++ "&redirect_uri=" ++ c.redirectURL
    ++ "&response_type=code&scope=" ++ String.intercalate " " c.scopes
    ++ "&state=" ++ state

/-- Observable calls to the two external collaborators: the interactive
`Authenticator` capability and the provider token endpoint (`Exchange`). -/
inductive Event where
  | authCall : String → Event
  | exchangeCall : String → Event
deriving DecidableEq, Repr

/-- Whether an event is an invocation of the interactive capability. -/
def isAuthCall : Event → Bool
  | Event.authCall _ => true
  | _ => false

/-- Whether an event is an invocation of the provider token endpoint. -/
def isExchangeCall : Event → Bool
  | Event.exchangeCall _ => true
  | _ => false

/-- The external collaborators injected into the flow: the pluggable
`Authenticator.Authenticate(authURL) -> (code, error)` capability and the
provider's `config.Exchange(ctx, code) -> (*oauth2.Token, error)`. -/
structure AuthEnv where
  authenticator : String → Except GoError String
  exchange : String → Except GoError (Option Token)

/-- `loadToken`: read the token file and unmarshal it into `TokenWithExpiry`,
wrapping the read error or the JSON error with `%w`. -/
def loadToken (fs : FS) : Except GoError TokenWithExpiry :=
  match fs.tokenFile with
  | none => Except.error (GoError.errorfWrap "failed to read token file" errNotExist)
  | some f =>
    match f.data with
    | FileData.garbage =>
        Except.error (GoError.errorfWrap "failed to unmarshal token" jsonSyntaxError)
    | FileData.json j =>
        match unmarshalTokenWithExpiry j with
        | Except.error e => Except.error (GoError.errorfWrap "failed to unmarshal token" e)
        | Except.ok t => Except.ok t

/-- The expiry error built by `GetClient`: `fmt.Errorf` with a `%v` of the
duration but no `%w`, so nothing is wrapped. -/
def expiredError (expiresIn : Int) : GoError :=
  GoError.errorfNoWrap
    ("token has expired after " ++ toString expiresIn ++ ", please re-authenticate")

/-- `GetClient`: load the saved token; on load failure wrap the error; if
the token is expired, `os.Remove` the token file and fail; otherwise return
the client built by `config.Client`. -/
def GetClient (cfg : OAuthConfig) (fs : FS) (now : Int) :
    Except GoError HTTPClient × FS :=
  match loadToken fs with
  | Except.error e =>
      (Except.error (GoError.errorfWrap "no saved token found" e), fs)
  | Except.ok t =>
      if IsExpired t now then
        (Except.error (expiredError t.expiresIn), { fs with tokenFile := none })
      else
        (Except.ok { config := cfg, token := t.token }, fs)

/-- `saveToken`: `os.MkdirAll(dir, 0700)` (keeping an existing directory's
mode), build a `TokenWithExpiry` with `IssuedAt = now` and the fixed
24-hour window, `json.Marshal` it, and `os.WriteFile(path, data, 0600)`
(creation mode applies only when the file does not already exist). -/
def saveToken (fs : FS) (now : Int) (token : Option Token) :
    Except GoError Unit × FS :=
  let dirEnt : DirEntry := match fs.tokenDir with | some d => d | none => { perm := 0o700 }
  let twe : TokenWithExpiry := { token := token, issuedAt := now, expiresIn := day }
  let filePerm : Nat := match fs.tokenFile with | some f => f.perm | none => 0o600
  (Except.ok (),
   { tokenFile := some { data := FileData.json (marshalTokenWithExpiry twe), perm := filePerm },
     tokenDir := some dirEnt })

/-- `Authenticate` (the initial authorization flow): skip if the token file
exists (`os.Stat` succeeds); otherwise build the consent URL, run the
interactive capability (wrapping its error), exchange the code (returning
the provider's error unmodified), and persist via `saveToken`.  The trace
records which collaborators were invoked. -/
def Authenticate (env : AuthEnv) (cfg : OAuthConfig) (fs : FS) (now : Int) :
    Except GoError Unit × FS × List Event :=
  match fs.tokenFile with
  | some _ => (Except.ok (), fs, [])
  | none =>
    let authURL := AuthCodeURL cfg "state"
    match env.authenticator authURL with
    | Except.error e =>
        (Except.error (GoError.errorfWrap "authentication failed" e), fs,
         [Event.authCall authURL])
    | Except.ok authCode =>
      match env.exchange authCode with
      | Except.error e =>
          (Except.error e, fs, [Event.authCall authURL, Event.exchangeCall authCode])
      | Except.ok token =>
          let r := saveToken fs now token
          (r.1, r.2, [Event.authCall authURL, Event.exchangeCall authCode])

/-- `GetOrAuthenticateClient`: try `GetClient`; on failure run
`Authenticate` (wrapping its error); then retry `GetClient` exactly once. -/
def GetOrAuthenticateClient (env : AuthEnv) (cfg : OAuthConfig) (fs : FS) (now : Int) :
    Except GoError HTTPClient × FS × List Event :=
  match GetClient cfg fs now with
  | (Except.ok c, fs1) => (Except.ok c, fs1, [])
  | (Except.error _, fs1) =>
    match Authenticate env cfg fs1 now with
    | (Except.error e, fs2, tr) =>
        (Except.error (GoError.errorfWrap "authentication failed" e), fs2, tr)
    | (Except.ok _, fs2, tr) =>
        match GetClient cfg fs2 now with
        | (r, fs3) => (r, fs3, tr)

/-- `BrowserAuthenticator.Authenticate`, modelled by its observable outcome.
The Go code opens the browser (best-effort), registers a single `/callback`
route, starts `server.ListenAndServe()` on a goroutine whose error is
discarded, and then blocks on `authCode := <-code`.  `bindSucceeds` says
whether the listener bound port 8089; `callbackRequest` is the code carried
by a `/callback` request reaching this server, if any (none can reach it
when the bind failed).  A `none` result means the call never returns: the
receive on the unbuffered channel blocks forever.  A `some (code, e)`
result is the returned pair, `e = none` being Go's `nil` error. -/
def browserAuthenticateRun (bindSucceeds : Bool) (callbackRequest : Option String) :
    Option (String × Option GoError) :=
  match (if bindSucceeds then callbackRequest else none) with
  | some code => some (code, none)
  | none => none

/-- Helper: a credential written by `saveToken` loads back exactly, with the
fixed 24-hour window and `issuedAt = now`. -/
theorem loadToken_saveToken (fs : FS) (now : Int) (tok : Option Token) :
    loadToken (saveToken fs now tok).2 =
      Except.ok { token := tok, issuedAt := now, expiresIn := day } := by
  simp [loadToken, saveToken, unmarshal_marshal_tokenWithExpiry]

/-- Helper: a credential issued at the current instant is not expired. -/
theorem isExpired_fresh (tok : Option Token) (now : Int) :
    IsExpired { token := tok, issuedAt := now, expiresIn := day } now = false := by
  simp [IsExpired, day]

/-- Concrete OAuth configuration used by witnesses. -/
def cfg0 : OAuthConfig :=
  { clientID := "id", clientSecret := "secret",
    redirectURL := "http://localhost:8089/callback",
    scopes := ["documents.readonly", "drive.readonly"],
    endpointAuthURL := "https://accounts.google.com/o/oauth2/auth",
    endpointTokenURL := "https://oauth2.googleapis.com/token" }

/-- Concrete provider token used by witnesses. -/
def tok0 : Token :=
  { accessToken := "access", tokenType := "Bearer", refreshToken := "refresh",
    expiry := 0 }

/-- Concrete stored credential issued at time 0 with the 24-hour window. -/
def twe0 : TokenWithExpiry := { token := some tok0, issuedAt := 0, expiresIn := day }

/-- Environment whose capability and exchange both succeed. -/
def envOk : AuthEnv :=
  { authenticator := fun _ => Except.ok "abc123",
    exchange := fun _ => Except.ok (some tok0) }

/-- Environment whose interactive capability fails (user cancels). -/
def envAuthFail : AuthEnv :=
  { authenticator := fun _ => Except.error (GoError.sentinel "user canceled"),
    exchange := fun _ => Except.ok (some tok0) }

/-- Environment whose provider rejects the code exchange. -/
def envExchangeFail : AuthEnv :=
  { authenticator := fun _ => Except.ok "abc123",
    exchange := fun _ => Except.error (GoError.sentinel "oauth2: cannot fetch token") }

/-- Empty configuration directory: no token file, no directory. -/
def fsEmpty : FS := { tokenFile := none, tokenDir := none }

/-- A token file whose bytes fail JSON decoding. -/
def fsCorrupt : FS :=
  { tokenFile := some { data := FileData.garbage, perm := 0o600 },
    tokenDir := some { perm := 0o700 } }

/-- A well-formed persisted credential on disk. -/
def fsWith (t : TokenWithExpiry) : FS :=
  { tokenFile := some { data := FileData.json (marshalTokenWithExpiry t), perm := 0o600 },
    tokenDir := some { perm := 0o700 } }

/-- C1: when `GetClient` successfully loads a persisted credential, it deletes
the token file and fails with the `Expired` error exactly when
`now - issuedAt > validFor` (and afterwards the file no longer exists);
otherwise it returns the transport handle built from the config and token
and leaves the filesystem untouched. -/
theorem getClient_expiry_enforcement (cfg : OAuthConfig) (fs : FS) (now : Int)
    (t : TokenWithExpiry) (hload : loadToken fs = Except.ok t) :
    (now - t.issuedAt > t.expiresIn →
      GetClient cfg fs now =
        (Except.error (expiredError t.expiresIn), { fs with tokenFile := none }) ∧
      (GetClient cfg fs now).2.tokenFile = none) ∧
    (¬(now - t.issuedAt > t.expiresIn) →
      GetClient cfg fs now = (Except.ok { config := cfg, token := t.token }, fs)) := by
  constructor
  · intro hexp
    have hb : IsExpired t now = true := by simp [IsExpired, hexp]
    constructor <;> simp [GetClient, hload, hb]
  · intro hexp
    have hb : IsExpired t now = false := by simp [IsExpired, hexp]
    simp [GetClient, hload, hb]

/-- C1 witness: a credential issued 25 hours ago with the 24-hour window is
deleted and rejected; the same credential read at its issue instant yields a
client and no deletion. -/
theorem getClient_expiry_enforcement_witness :
    (GetClient cfg0 (fsWith twe0) (25 * 3600 * 1000000000) =
      (Except.error (expiredError twe0.expiresIn),
        { fsWith twe0 with tokenFile := none }) ∧
     (GetClient cfg0 (fsWith twe0) (25 * 3600 * 1000000000)).2.tokenFile = none) ∧
    GetClient cfg0 (fsWith twe0) 0 =
      (Except.ok { config := cfg0, token := twe0.token }, fsWith twe0) := by
  have hload : loadToken (fsWith twe0) = Except.ok twe0 := by
    simp [loadToken, fsWith, unmarshal_marshal_tokenWithExpiry]
  refine ⟨(getClient_expiry_enforcement cfg0 (fsWith twe0) (25 * 3600 * 1000000000)
      twe0 hload).1 ?_,
    (getClient_expiry_enforcement cfg0 (fsWith twe0) 0 twe0 hload).2 ?_⟩
  · norm_num [twe0, day]
  · norm_num [twe0, day]

/-- Helper: `os.Stat` succeeding on the token path makes `Authenticate` a
no-op, whatever the file holds. -/
theorem authenticate_stat_skip (env : AuthEnv) (cfg : OAuthConfig)
    (fs : FS) (now : Int) (f : FileEntry) (hex : fs.tokenFile = some f) :
    Authenticate env cfg fs now = (Except.ok (), fs, []) := by
  unfold Authenticate
  rw [hex]

/-- C2: whenever the token file exists, `Authenticate` returns success
immediately, invokes neither the interactive capability nor the token
exchange (empty trace), and leaves the state unchanged — whatever the file
contains. -/
theorem authenticate_short_circuit (env : AuthEnv) (cfg : OAuthConfig)
    (fs : FS) (now : Int) (f : FileEntry) (hex : fs.tokenFile = some f) :
    Authenticate env cfg fs now = (Except.ok (), fs, []) :=
  authenticate_stat_skip env cfg fs now f hex

/-- C2 witness: the short circuit fires both on a corrupt file and on an
expired credential, with no collaborator calls and no state change. -/
theorem authenticate_short_circuit_witness :
    Authenticate envOk cfg0 fsCorrupt 0 = (Except.ok (), fsCorrupt, []) ∧
    Authenticate envOk cfg0 (fsWith twe0) (25 * 3600 * 1000000000) =
      (Except.ok (), fsWith twe0, []) :=
  ⟨authenticate_short_circuit envOk cfg0 fsCorrupt 0 _ rfl,
   authenticate_short_circuit envOk cfg0 (fsWith twe0) (25 * 3600 * 1000000000) _ rfl⟩

/-- Helper: a single `Authenticate` run invokes the interactive capability at
most once and the token exchange at most once. -/
theorem authenticate_trace_bound (env : AuthEnv) (cfg : OAuthConfig)
    (fs : FS) (now : Int) :
    (Authenticate env cfg fs now).2.2.countP isAuthCall ≤ 1 ∧
    (Authenticate env cfg fs now).2.2.countP isExchangeCall ≤ 1 := by
  unfold Authenticate
  cases hf : fs.tokenFile with
  | some f => simp
  | none =>
    cases ha : env.authenticator (AuthCodeURL cfg "state") with
    | error e => simp [ha, List.countP, List.countP.go, isAuthCall, isExchangeCall]
    | ok code =>
      cases hx : env.exchange code with
      | error e => simp [ha, hx, List.countP, List.countP.go, isAuthCall, isExchangeCall]
      | ok tok => simp [ha, hx, List.countP, List.countP.go, isAuthCall, isExchangeCall]

/-- C3: `GetOrAuthenticateClient` tries `GetClient`, on failure runs
`Authenticate`, then retries `GetClient` exactly once and stops: every run
invokes the interactive capability at most once and the exchange at most
once; a failing `Authenticate` is terminal (its error is wrapped and
returned); a second `GetClient` failure is terminal (its error is returned
as is); and from an empty state with a succeeding capability and exchange
the run performs exactly one authorization exchange and ends in one
successful `GetClient` returning the client built from the fresh token. -/
theorem getOrAuthenticate_retry_once (env : AuthEnv) (cfg : OAuthConfig)
    (fs : FS) (now : Int) :
    ((GetOrAuthenticateClient env cfg fs now).2.2.countP isAuthCall ≤ 1 ∧
     (GetOrAuthenticateClient env cfg fs now).2.2.countP isExchangeCall ≤ 1) ∧
    (∀ e0 fs1 e fs2 tr, GetClient cfg fs now = (Except.error e0, fs1) →
      Authenticate env cfg fs1 now = (Except.error e, fs2, tr) →
      GetOrAuthenticateClient env cfg fs now =
        (Except.error (GoError.errorfWrap "authentication failed" e), fs2, tr)) ∧
    (∀ e0 fs1 fs2 tr r fs3, GetClient cfg fs now = (Except.error e0, fs1) →
      Authenticate env cfg fs1 now = (Except.ok (), fs2, tr) →
      GetClient cfg fs2 now = (r, fs3) →
      GetOrAuthenticateClient env cfg fs now = (r, fs3, tr)) ∧
    (∀ code tok, fs.tokenFile = none →
      env.authenticator (AuthCodeURL cfg "state") = Except.ok code →
      env.exchange code = Except.ok tok →
      (GetOrAuthenticateClient env cfg fs now).2.2 =
        [Event.authCall (AuthCodeURL cfg "state"), Event.exchangeCall code] ∧
      (GetOrAuthenticateClient env cfg fs now).1 =
        Except.ok { config := cfg, token := tok }) := by
  refine ⟨?_, ?_, ?_, ?_⟩
  · cases hg : GetClient cfg fs now with
    | mk r1 fs1 =>
      cases r1 with
      | ok c => simp [GetOrAuthenticateClient, hg]
      | error e0 =>
        cases ha : Authenticate env cfg fs1 now with
        | mk r2 rest =>
          cases rest with
          | mk fs2 tr =>
            have hb := authenticate_trace_bound env cfg fs1 now
            rw [ha] at hb
            cases r2 with
            | error e => simpa [GetOrAuthenticateClient, hg, ha] using hb
            | ok u =>
              cases hg2 : GetClient cfg fs2 now with
              | mk r3 fs3 => simpa [GetOrAuthenticateClient, hg, ha, hg2] using hb
  · intro e0 fs1 e fs2 tr hg ha
    simp [GetOrAuthenticateClient, hg, ha]
  · intro e0 fs1 fs2 tr r fs3 hg ha hg2
    simp [GetOrAuthenticateClient, hg, ha, hg2]
  · intro code tok hmiss hauth hex
    have hg : GetClient cfg fs now =
        (Except.error (GoError.errorfWrap "no saved token found"
          (GoError.errorfWrap "failed to read token file" errNotExist)), fs) := by
      simp [GetClient, loadToken, hmiss]
    have ha : Authenticate env cfg fs now =
        (Except.ok (), (saveToken fs now tok).2,
         [Event.authCall (AuthCodeURL cfg "state"), Event.exchangeCall code]) := by
      unfold Authenticate
      rw [hmiss]
      simp [hauth, hex, saveToken]
    have hg2 : GetClient cfg (saveToken fs now tok).2 now =
        (Except.ok { config := cfg, token := tok }, (saveToken fs now tok).2) := by
      simp [GetClient, loadToken_saveToken, isExpired_fresh]
    constructor <;> simp [GetOrAuthenticateClient, hg, ha, hg2]

/-- C3 witness: from the empty state with a capability returning code
`abc123` and a provider issuing a token, the composite run records exactly
one capability call and one exchange and returns the fresh client. -/
theorem getOrAuthenticate_retry_once_witness :
    (GetOrAuthenticateClient envOk cfg0 fsEmpty 0).2.2 =
      [Event.authCall (AuthCodeURL cfg0 "state"), Event.exchangeCall "abc123"] ∧
    (GetOrAuthenticateClient envOk cfg0 fsEmpty 0).1 =
      Except.ok { config := cfg0, token := some tok0 } :=
  (getOrAuthenticate_retry_once envOk cfg0 fsEmpty 0).2.2.2 "abc123" (some tok0)
    rfl rfl rfl

/-- C4 counterexample: when the provider rejects the code exchange,
`Authenticate` returns the provider's error itself, which wraps nothing —
not a wrapped error as the claim states. -/
theorem authenticate_exchange_error_unwrapped :
    (Authenticate envExchangeFail cfg0 fsEmpty 0).1 =
      Except.error (GoError.sentinel "oauth2: cannot fetch token") ∧
    hasWrappedCause (GoError.sentinel "oauth2: cannot fetch token") = false := by
  constructor <;> rfl

/-- C4 amended: a failing non-short-circuited `Authenticate` never creates or
modifies the credential file (the state is returned unchanged); the
interactive-capability error is propagated wrapped, but the exchange error
is propagated exactly as the provider returned it, without wrapping. -/
theorem authenticate_failure_no_persistence (env : AuthEnv) (cfg : OAuthConfig)
    (fs : FS) (now : Int) (hmiss : fs.tokenFile = none) :
    (∀ e, env.authenticator (AuthCodeURL cfg "state") = Except.error e →
      Authenticate env cfg fs now =
        (Except.error (GoError.errorfWrap "authentication failed" e), fs,
         [Event.authCall (AuthCodeURL cfg "state")])) ∧
    (∀ code e, env.authenticator (AuthCodeURL cfg "state") = Except.ok code →
      env.exchange code = Except.error e →
      Authenticate env cfg fs now =
        (Except.error e, fs,
         [Event.authCall (AuthCodeURL cfg "state"), Event.exchangeCall code])) := by
  constructor
  · intro e hauth
    unfold Authenticate
    rw [hmiss]
    simp [hauth]
  · intro code e hauth hx
    unfold Authenticate
    rw [hmiss]
    simp [hauth, hx]

/-- C4 witness: from the empty state, a cancelling capability yields the
wrapped flow error and a rejecting provider yields its own error verbatim;
the state is unchanged in both runs. -/
theorem authenticate_failure_no_persistence_witness :
    Authenticate envAuthFail cfg0 fsEmpty 0 =
      (Except.error (GoError.errorfWrap "authentication failed"
        (GoError.sentinel "user canceled")), fsEmpty,
       [Event.authCall (AuthCodeURL cfg0 "state")]) ∧
    Authenticate envExchangeFail cfg0 fsEmpty 0 =
      (Except.error (GoError.sentinel "oauth2: cannot fetch token"), fsEmpty,
       [Event.authCall (AuthCodeURL cfg0 "state"), Event.exchangeCall "abc123"]) :=
  ⟨(authenticate_failure_no_persistence envAuthFail cfg0 fsEmpty 0 rfl).1
     (GoError.sentinel "user canceled") rfl,
   (authenticate_failure_no_persistence envExchangeFail cfg0 fsEmpty 0 rfl).2
     "abc123" (GoError.sentinel "oauth2: cannot fetch token") rfl rfl⟩

/-- C5 counterexample: starting from a corrupt token file, with a capability
and provider that would both succeed, the composite flow does not recover:
it returns the load error, invokes neither the interactive step nor the
exchange (empty trace), and leaves the corrupt file in place. -/
theorem composite_corrupt_not_recovered :
    (GetOrAuthenticateClient envOk cfg0 fsCorrupt 0).1 =
      Except.error (GoError.errorfWrap "no saved token found"
        (GoError.errorfWrap "failed to unmarshal token" jsonSyntaxError)) ∧
    (GetOrAuthenticateClient envOk cfg0 fsCorrupt 0).2.1 = fsCorrupt ∧
    (GetOrAuthenticateClient envOk cfg0 fsCorrupt 0).2.2 = [] := by
  refine ⟨rfl, rfl, rfl⟩

/-- C5 amended: a corrupt credential file is handled differently from a
missing one: `GetClient` fails with the load error and keeps the file, the
existence short-circuit makes `Authenticate` a successful no-op, and the
retried `GetClient` fails identically, so `GetOrAuthenticateClient` returns
the load error with the corrupt file still present and the authorization
flow never run. -/
theorem composite_corrupt_terminal (env : AuthEnv) (cfg : OAuthConfig)
    (fs : FS) (now : Int) (p : Nat)
    (hc : fs.tokenFile = some { data := FileData.garbage, perm := p }) :
    GetOrAuthenticateClient env cfg fs now =
      (Except.error (GoError.errorfWrap "no saved token found"
        (GoError.errorfWrap "failed to unmarshal token" jsonSyntaxError)), fs, []) := by
  have hg : GetClient cfg fs now =
      (Except.error (GoError.errorfWrap "no saved token found"
        (GoError.errorfWrap "failed to unmarshal token" jsonSyntaxError)), fs) := by
    simp [GetClient, loadToken, hc]
  have ha : Authenticate env cfg fs now = (Except.ok (), fs, []) :=
    authenticate_stat_skip env cfg fs now _ hc
  simp [GetOrAuthenticateClient, hg, ha]

/-- C5 amended witness: the concrete corrupt state with the all-succeeding
environment returns the load error unchanged state and empty trace. -/
theorem composite_corrupt_terminal_witness :
    GetOrAuthenticateClient envOk cfg0 fsCorrupt 5 =
      (Except.error (GoError.errorfWrap "no saved token found"
        (GoError.errorfWrap "failed to unmarshal token" jsonSyntaxError)),
       fsCorrupt, []) :=
  composite_corrupt_terminal envOk cfg0 fsCorrupt 5 0o600 rfl

/-- C6: the persistence round trip is lossless: every `TokenWithExpiry`
survives marshal/unmarshal exactly, and a credential written by `saveToken`
loads back with identical token fields, `issuedAt = now` and the same
`expiresIn` window. -/
theorem saveToken_loadToken_roundtrip (t : TokenWithExpiry) (fs : FS)
    (now : Int) (tok : Option Token) :
    unmarshalTokenWithExpiry (marshalTokenWithExpiry t) = Except.ok t ∧
    (saveToken fs now tok).1 = Except.ok () ∧
    loadToken (saveToken fs now tok).2 =
      Except.ok { token := tok, issuedAt := now, expiresIn := day } :=
  ⟨unmarshal_marshal_tokenWithExpiry t, rfl, loadToken_saveToken fs now tok⟩

/-- C7: a successful non-short-circuited `Authenticate` persists a credential
with `issuedAt = now` and the fixed 24-hour window, as the marshalled
structure in a file created with mode 0600, creating the containing
directory with mode 0700 when it was absent and keeping it when present. -/
theorem authenticate_persists_fixed_window (env : AuthEnv) (cfg : OAuthConfig)
    (fs : FS) (now : Int) (code : String) (tok : Option Token)
    (hmiss : fs.tokenFile = none)
    (hauth : env.authenticator (AuthCodeURL cfg "state") = Except.ok code)
    (hx : env.exchange code = Except.ok tok) :
    (Authenticate env cfg fs now).1 = Except.ok () ∧
    (Authenticate env cfg fs now).2.1.tokenFile =
      some { data := FileData.json (marshalTokenWithExpiry
        { token := tok, issuedAt := now, expiresIn := day }), perm := 0o600 } ∧
    loadToken (Authenticate env cfg fs now).2.1 =
      Except.ok { token := tok, issuedAt := now, expiresIn := day } ∧
    (fs.tokenDir = none →
      (Authenticate env cfg fs now).2.1.tokenDir = some { perm := 0o700 }) ∧
    (∀ d, fs.tokenDir = some d →
      (Authenticate env cfg fs now).2.1.tokenDir = some d) := by
  have ha : Authenticate env cfg fs now =
      (Except.ok (), (saveToken fs now tok).2,
       [Event.authCall (AuthCodeURL cfg "state"), Event.exchangeCall code]) := by
    unfold Authenticate
    rw [hmiss]
    simp [hauth, hx, saveToken]
  refine ⟨by simp [ha], ?_, ?_, ?_, ?_⟩
  · simp [ha, saveToken, hmiss]
  · simp [ha, loadToken_saveToken]
  · intro hd
    simp [ha, saveToken, hd]
  · intro d hd
    simp [ha, saveToken, hd]

/-- C7 witness: from the empty state with the all-succeeding environment at
time 7, the persisted file holds the marshalled credential issued at 7 with
the 24-hour window, mode 0600, in a directory freshly created with 0700. -/
theorem authenticate_persists_fixed_window_witness :
    (Authenticate envOk cfg0 fsEmpty 7).1 = Except.ok () ∧
    (Authenticate envOk cfg0 fsEmpty 7).2.1.tokenFile =
      some { data := FileData.json (marshalTokenWithExpiry
        { token := some tok0, issuedAt := 7, expiresIn := day }), perm := 0o600 } ∧
    loadToken (Authenticate envOk cfg0 fsEmpty 7).2.1 =
      Except.ok { token := some tok0, issuedAt := 7, expiresIn := day } ∧
    (Authenticate envOk cfg0 fsEmpty 7).2.1.tokenDir = some { perm := 0o700 } := by
  have h := authenticate_persists_fixed_window envOk cfg0 fsEmpty 7 "abc123"
    (some tok0) rfl rfl rfl
  exact ⟨h.1, h.2.1, h.2.2.1, h.2.2.2.1 rfl⟩

/-- Classification of a `GetClient` failure by its unwrap chain only: the
missing-file case is recognized by `fs.ErrNotExist` in the chain, the
corrupt-file case by a JSON decoding error, and the expiry case only as the
residue — its error wraps nothing. -/
def classifyGetClientError (e : GoError) : String :=
  if chainContains e errNotExist then "NotFound"
  else if chainContains e jsonSyntaxError || chainContains e jsonTypeError then "LoadError"
  else "Expired"

/-- C8 counterexample: the `Expired` failure of `GetClient` carries no
wrapped underlying cause at all — its unwrap chain is the error alone — so
the claim that every error carries a wrapped cause fails on it. -/
theorem expired_error_has_no_cause :
    (GetClient cfg0 (fsWith twe0) (25 * 3600 * 1000000000)).1 =
      Except.error (expiredError day) ∧
    hasWrappedCause (expiredError day) = false ∧
    causeChain (expiredError day) = [expiredError day] := by
  refine ⟨rfl, rfl, rfl⟩

/-- C8 amended: the missing-file and corrupt-file failures of `GetClient`
wrap distinguishable underlying causes (`fs.ErrNotExist` and the JSON
decoding error), so those two are identifiable from wrapped values alone;
the `Expired` failure wraps no cause and is identifiable only as the case
whose chain contains neither. -/
theorem getClient_error_classification (cfg : OAuthConfig) (fs : FS) (now : Int) :
    (fs.tokenFile = none →
      ∃ e, (GetClient cfg fs now).1 = Except.error e ∧
        hasWrappedCause e = true ∧ classifyGetClientError e = "NotFound") ∧
    (∀ p, fs.tokenFile = some { data := FileData.garbage, perm := p } →
      ∃ e, (GetClient cfg fs now).1 = Except.error e ∧
        hasWrappedCause e = true ∧ classifyGetClientError e = "LoadError") ∧
    (∀ t, loadToken fs = Except.ok t → IsExpired t now = true →
      (GetClient cfg fs now).1 = Except.error (expiredError t.expiresIn) ∧
        hasWrappedCause (expiredError t.expiresIn) = false ∧
        classifyGetClientError (expiredError t.expiresIn) = "Expired") := by
  refine ⟨?_, ?_, ?_⟩
  · intro hmiss
    exact ⟨GoError.errorfWrap "no saved token found"
        (GoError.errorfWrap "failed to read token file" errNotExist),
      by simp [GetClient, loadToken, hmiss], rfl, rfl⟩
  · intro p hc
    exact ⟨GoError.errorfWrap "no saved token found"
        (GoError.errorfWrap "failed to unmarshal token" jsonSyntaxError),
      by simp [GetClient, loadToken, hc], rfl, rfl⟩
  · intro t hload hexp
    refine ⟨by simp [GetClient, hload, hexp], rfl, ?_⟩
    simp [classifyGetClientError, chainContains, causeChain, expiredError,
      errNotExist, jsonSyntaxError, jsonTypeError]

/-- C8 amended witness: the three concrete failure states classify as
NotFound, LoadError and Expired respectively, the first two with a wrapped
cause and the last without one. -/
theorem getClient_error_classification_witness :
    (∃ e, (GetClient cfg0 fsEmpty 0).1 = Except.error e ∧
      hasWrappedCause e = true ∧ classifyGetClientError e = "NotFound") ∧
    (∃ e, (GetClient cfg0 fsCorrupt 0).1 = Except.error e ∧
      hasWrappedCause e = true ∧ classifyGetClientError e = "LoadError") ∧
    ((GetClient cfg0 (fsWith twe0) (25 * 3600 * 1000000000)).1 =
        Except.error (expiredError twe0.expiresIn) ∧
      hasWrappedCause (expiredError twe0.expiresIn) = false ∧
      classifyGetClientError (expiredError twe0.expiresIn) = "Expired") := by
  refine ⟨(getClient_error_classification cfg0 fsEmpty 0).1 rfl,
    (getClient_error_classification cfg0 fsCorrupt 0).2.1 0o600 rfl,
    (getClient_error_classification cfg0 (fsWith twe0)
      (25 * 3600 * 1000000000)).2.2 twe0 ?_ ?_⟩
  · simp [loadToken, fsWith, unmarshal_marshal_tokenWithExpiry]
  · norm_num [IsExpired, twe0, day]

/-- C9 counterexample: with the bind failed, `BrowserAuthenticator`'s flow
never returns at all — whether or not a callback request was sent — so it
does not return a non-nil error. -/
theorem browserAuthenticate_bind_failure_blocks :
    browserAuthenticateRun false (some "abc123") = none ∧
    browserAuthenticateRun false none = none := by
  refine ⟨rfl, rfl⟩

/-- C9 amended: when the listener fails to bind, the `ListenAndServe` error
is discarded on its goroutine and the flow blocks forever on the code
channel (no return value); moreover every run that does return carries a
nil error, so a bind failure never surfaces as an error from
`BrowserAuthenticator.Authenticate`, and no `AuthFlowError` results. -/
theorem browserAuthenticate_never_errors (cb : Option String) :
    browserAuthenticateRun false cb = none ∧
    (∀ b cb2 code e, browserAuthenticateRun b cb2 = some (code, e) → e = none) := by
  constructor
  · cases cb <;> rfl
  · intro b cb2 code e h
    cases b <;> cases cb2 <;> simp [browserAuthenticateRun] at h
    exact h.2.symm

/-- C9 amended witness: the blocked run on a failed bind, and the nil error
extracted from a completed run. -/
theorem browserAuthenticate_never_errors_witness :
    browserAuthenticateRun false (some "xyz") = none ∧
    (none : Option GoError) = none :=
  ⟨(browserAuthenticate_never_errors (some "xyz")).1,
   (browserAuthenticate_never_errors (some "xyz")).2 true (some "abc123") "abc123"
     none rfl⟩

/-- C10: `saveToken` accepts a nil token without validation: it succeeds,
writes a file whose `token` field is JSON `null` (with `issuedAt = now` and
the 24-hour window), `loadToken` parses that file back without error, and a
`GetClient` within the window returns the transport handle built from the
nil token. -/
theorem saveToken_nil_token_accepted (cfg : OAuthConfig) (fs : FS) (now : Int) :
    (saveToken fs now none).1 = Except.ok () ∧
    (∃ fields p, (saveToken fs now none).2.tokenFile =
        some { data := FileData.json (Json.obj fields), perm := p } ∧
      lookupField fields "token" = some Json.null) ∧
    loadToken (saveToken fs now none).2 =
      Except.ok { token := none, issuedAt := now, expiresIn := day } ∧
    GetClient cfg (saveToken fs now none).2 now =
      (Except.ok { config := cfg, token := none }, (saveToken fs now none).2) := by
  refine ⟨rfl, ⟨_, _, rfl, rfl⟩, loadToken_saveToken fs now none, ?_⟩
  simp [GetClient, loadToken_saveToken, isExpired_fresh]

end GoogleDocReview
